import Mathlib

/-!
# Interactive globe with timeline (`globe-script.js`)

A shallow embedding of the rotation state, the input handlers, the per-frame
update and the render loop of `globe-script.js`.

Modelling conventions.

* JavaScript numbers are rationals (`ℚ`).  The rotation state is computed in
  exact arithmetic.  The visibility test of the timeline items compares a
  computed angle with the threshold `90`, where one rounding decides the
  outcome, so there every `+`, `-`, `*` and `/` is rounded to the nearest
  double (`roundDouble`); the operator `%` is exact on doubles.  The only
  non-finite value the script can produce is the `NaN` that arises in
  `animate` from an `undefined` timestamp; there a number is an `Option ℚ`
  with `none` standing for `NaN`.
* The module-level `let` variables are the fields of `State`.  The part of the
  DOM the script writes (the hint's class list, the container's `grabbing`
  class, the inline styles of the timeline items) is carried in the same
  record.  The listeners are only registered when the canvas and the container
  exist (`setupEventListeners`), so the container is taken to be present.
* The mesh rotation (degrees to radians) and the two container custom
  properties are plain copies of `rotationX`/`rotationY` and are not modelled.
-/

namespace GlobeScript

/-! ## Configuration -/

/-- The numeric part of the `CONFIG` object. -/
structure Config where
  globeSize : ℚ
  rotationDamping : ℚ
  easing : ℚ
  rotationConstraint : ℚ

/-- The constant `CONFIG` of the script. -/
def CONFIG : Config :=
  { globeSize := 100, rotationDamping := 0.95, easing := 0.1, rotationConstraint := 60 }

/-! ## State -/

/-- The inline style the script writes on one `.timeline-item`. -/
structure ItemStyle where
  opacity : String
  pointerEvents : String
  counterRotateY : ℚ
  counterRotateX : ℚ
deriving DecidableEq

/-- One entry of `e.touches`. -/
structure Touch where
  clientX : ℚ
  clientY : ℚ
deriving DecidableEq

/-- Module-level variables of the script, together with the DOM it writes.
`hintHideActions` counts the executions of `hint.classList.add('hidden')`. -/
structure State where
  rotationX : ℚ
  rotationY : ℚ
  targetRotationX : ℚ
  targetRotationY : ℚ
  velocityX : ℚ
  velocityY : ℚ
  isDragging : Bool
  lastX : ℚ
  lastY : ℚ
  isFirstInteraction : Bool
  hintPresent : Bool
  hintHideActions : ℕ
  grabbing : Bool
  items : List ItemStyle
deriving DecidableEq

/-- State right after the script is loaded: the declarations of lines 6-11, over
a page with or without a hint element and with the given timeline items. -/
def initialState (hintPresent : Bool) (items : List ItemStyle) : State :=
  { rotationX := 0, rotationY := 0
    targetRotationX := 0, targetRotationY := 0
    velocityX := 0, velocityY := 0
    isDragging := false
    lastX := 0, lastY := 0
    isFirstInteraction := true
    hintPresent := hintPresent
    hintHideActions := 0
    grabbing := false
    items := items }

/-! ## Input handlers -/

/-- Function `constrainRotation` (lines 249-258): two successive `if`s. -/
def constrainRotation (s : State) : State :=
  let s1 :=
    if s.targetRotationX > CONFIG.rotationConstraint then
      { s with targetRotationX := CONFIG.rotationConstraint, velocityY := 0 }
    else s
  if s1.targetRotationX < -CONFIG.rotationConstraint then
    { s1 with targetRotationX := -CONFIG.rotationConstraint, velocityY := 0 }
  else s1

/-- Function `hideHintOnFirstInteraction` (lines 260-268). -/
def hideHintOnFirstInteraction (s : State) : State :=
  if s.isFirstInteraction then
    let s1 :=
      if s.hintPresent then { s with hintHideActions := s.hintHideActions + 1 } else s
    { s1 with isFirstInteraction := false }
  else s

/-- Function `onMouseDown` (lines 163-169). -/
def onMouseDown (clientX clientY : ℚ) (s : State) : State :=
  hideHintOnFirstInteraction
    { s with isDragging := true, lastX := clientX, lastY := clientY, grabbing := true }

/-- Function `onMouseMove` (lines 171-187). -/
def onMouseMove (clientX clientY : ℚ) (s : State) : State :=
  if !s.isDragging then s
  else
    let deltaX := clientX - s.lastX
    let deltaY := clientY - s.lastY
    let velocityX := deltaX * 0.5
    let velocityY := deltaY * 0.5
    constrainRotation
      { s with
        velocityX := velocityX
        velocityY := velocityY
        targetRotationY := s.targetRotationY + velocityX
        targetRotationX := s.targetRotationX + velocityY
        lastX := clientX
        lastY := clientY }

/-- Function `onMouseUp` (lines 189-192). -/
def onMouseUp (s : State) : State :=
  { s with isDragging := false, grabbing := false }

/-- Function `onTouchStart` (lines 194-201). -/
def onTouchStart (touches : List Touch) (s : State) : State :=
  match touches with
  | [t] =>
    hideHintOnFirstInteraction
      { s with isDragging := true, lastX := t.clientX, lastY := t.clientY }
  | _ => s

/-- Function `onTouchMove` (lines 203-220). -/
def onTouchMove (touches : List Touch) (s : State) : State :=
  match touches with
  | [t] =>
    if !s.isDragging then s
    else
      let deltaX := t.clientX - s.lastX
      let deltaY := t.clientY - s.lastY
      let velocityX := deltaX * 0.5
      let velocityY := deltaY * 0.5
      constrainRotation
        { s with
          velocityX := velocityX
          velocityY := velocityY
          targetRotationY := s.targetRotationY + velocityX
          targetRotationX := s.targetRotationX + velocityY
          lastX := t.clientX
          lastY := t.clientY }
  | _ => s

/-- Function `onTouchEnd` (lines 222-224). -/
def onTouchEnd (s : State) : State :=
  { s with isDragging := false }

/-- Function `onKeyDown` (lines 226-247): the `switch` on `e.key`, then
`constrainRotation` for every key. -/
def onKeyDown (key : String) (s : State) : State :=
  let step : ℚ := 5
  let s1 :=
    if key = "ArrowLeft" then
      hideHintOnFirstInteraction { s with targetRotationY := s.targetRotationY - step }
    else if key = "ArrowRight" then
      hideHintOnFirstInteraction { s with targetRotationY := s.targetRotationY + step }
    else if key = "ArrowUp" then
      hideHintOnFirstInteraction { s with targetRotationX := s.targetRotationX - step }
    else if key = "ArrowDown" then
      hideHintOnFirstInteraction { s with targetRotationX := s.targetRotationX + step }
    else s
  constrainRotation s1

/-- Click listener of the `index`-th `.carousel-arrow` button (lines 151-157). -/
def onArrowClick (index : ℕ) (s : State) : State :=
  let angle : ℚ := if index = 0 then -15 else 15
  hideHintOnFirstInteraction { s with targetRotationY := s.targetRotationY + angle }

/-! ## Per-frame update -/

/-- Truncation toward zero, the rounding of the quotient in the `%` operator. -/
def jsTrunc (q : ℚ) : ℤ :=
  if 0 ≤ q then ⌊q⌋ else ⌈q⌉

/-- The JavaScript `%` operator on finite numbers with a non-zero divisor: the
remainder has the sign of the dividend. -/
def jsRem (a b : ℚ) : ℚ :=
  a - b * (jsTrunc (a / b) : ℚ)

/-- Rounding of a rational to an integer, to nearest, ties to even. -/
def roundHalfEven (q : ℚ) : ℤ :=
  if q - (⌊q⌋ : ℚ) < 1 / 2 then ⌊q⌋
  else if 1 / 2 < q - (⌊q⌋ : ℚ) then ⌊q⌋ + 1
  else if ⌊q⌋ % 2 = 0 then ⌊q⌋ else ⌊q⌋ + 1

/-- The double nearest to `x` (binary64, round to nearest, ties to even): the
significand has 53 bits, so the spacing in the binade of `x` is
`2 ^ (⌊log₂ |x|⌋ - 52)`, and `2 ^ (-1074)` in the subnormal range.  Overflow to
`Infinity` is not modelled. -/
def roundDouble (x : ℚ) : ℚ :=
  if x = 0 then 0
  else (roundHalfEven (x / 2 ^ (max (Int.log 2 |x|) (-1022) - 52)) : ℚ)
    * 2 ^ (max (Int.log 2 |x|) (-1022) - 52)

/-- The operator `+` on doubles. -/
def fadd (a b : ℚ) : ℚ := roundDouble (a + b)

/-- The operator `-` on doubles. -/
def fsub (a b : ℚ) : ℚ := roundDouble (a - b)

/-- The operator `*` on doubles. -/
def fmul (a b : ℚ) : ℚ := roundDouble (a * b)

/-- The operator `/` on doubles, for a non-zero divisor. -/
def fdiv (a b : ℚ) : ℚ := roundDouble (a / b)

/-- Local `adjustedRotationY` of the `forEach` body (line 317). -/
def adjustedRotationY (rotationY : ℚ) : ℚ :=
  jsRem (fadd (jsRem rotationY 360) 360) 360

/-- Local `normalizedAngle` of the `forEach` body (lines 314-319) for the item
at `index` among `length` items, each operation rounded as the script rounds
it; for a yaw that is a double this is the value the script computes. -/
def normalizedAngle (length index : ℕ) (rotationY : ℚ) : ℚ :=
  let angle : ℚ := fmul (fdiv 360 (length : ℚ)) (index : ℚ)
  let itemAngle :=
    jsRem (fadd (fsub (fadd angle 90) (adjustedRotationY rotationY)) 180) 360
  if itemAngle > 180 then fsub itemAngle 360 else itemAngle

/-- Local `isBackSide` of the `forEach` body (line 322). -/
def isBackSide (length index : ℕ) (rotationY : ℚ) : Bool :=
  decide (normalizedAngle length index rotationY > 90) ||
    decide (normalizedAngle length index rotationY < -90)

/-- Style written on the item at `index` by the `forEach` body (lines 313-331). -/
def timelineItemStyle (length index : ℕ) (rotationX rotationY : ℚ) : ItemStyle :=
  { opacity := if isBackSide length index rotationY then "0" else "1"
    pointerEvents := if isBackSide length index rotationY then "none" else "auto"
    counterRotateY := -rotationY
    counterRotateX := -rotationX }

/-- Function `updateGlobeRotation` (lines 282-332). -/
def updateGlobeRotation (s : State) : State :=
  let s1 :=
    { s with
      rotationX := s.rotationX + (s.targetRotationX - s.rotationX) * CONFIG.easing
      rotationY := s.rotationY + (s.targetRotationY - s.rotationY) * CONFIG.easing }
  let s2 :=
    if !s1.isDragging then
      let velocityX := s1.velocityX * CONFIG.rotationDamping
      let velocityY := s1.velocityY * CONFIG.rotationDamping
      constrainRotation
        { s1 with
          velocityX := velocityX
          velocityY := velocityY
          targetRotationX := s1.targetRotationX + velocityX
          targetRotationY := s1.targetRotationY + velocityY }
    else s1
  { s2 with
    items := (List.range s2.items.length).map
      (fun index => timelineItemStyle s2.items.length index s2.rotationX s2.rotationY) }

/-! ## Events -/

/-- The events the script listens to, with the data the handlers read. -/
inductive Event where
  | mousedown (clientX clientY : ℚ)
  | mousemove (clientX clientY : ℚ)
  | mouseup
  | touchstart (touches : List Touch)
  | touchmove (touches : List Touch)
  | touchend
  | keydown (key : String)
  | arrowClick (index : ℕ)
  | frame
deriving DecidableEq

/-- Dispatch of one event to its listener (`setupEventListeners`, lines 134-161);
`frame` is one executed call of `updateGlobeRotation`. -/
def step (s : State) : Event → State
  | .mousedown x y => onMouseDown x y s
  | .mousemove x y => onMouseMove x y s
  | .mouseup => onMouseUp s
  | .touchstart ts => onTouchStart ts s
  | .touchmove ts => onTouchMove ts s
  | .touchend => onTouchEnd s
  | .keydown k => onKeyDown k s
  | .arrowClick i => onArrowClick i s
  | .frame => updateGlobeRotation s

/-- Run a finite sequence of events, handlers running to completion one
after the other. -/
def run (s : State) (es : List Event) : State :=
  es.foldl step s

/-- States the script can be in: those reached from an initial state by a finite
sequence of events. -/
def Reachable (s : State) : Prop :=
  ∃ (hint : Bool) (items : List ItemStyle) (es : List Event),
    s = run (initialState hint items) es

/-! ## Hint bookkeeping along a run -/

/-- Whether handling `e` in state `s` executes `hint.classList.add('hidden')`. -/
def hidesHint (s : State) (e : Event) : Bool :=
  decide ((step s e).hintHideActions ≠ s.hintHideActions)

/-- For each event of a run, in order, whether the hint-hide action is executed
while that event is handled. -/
def hideTrace (s : State) : List Event → List Bool
  | [] => []
  | e :: es => hidesHint s e :: hideTrace (step s e) es

/-- Keeps the first `true` of a list and turns every later entry into `false`. -/
def firstOnly : List Bool → List Bool
  | [] => []
  | true :: bs => true :: bs.map (fun _ => false)
  | false :: bs => false :: firstOnly bs

/-- Events whose listener calls `hideHintOnFirstInteraction`: `mousedown`, a
`touchstart` with exactly one touch, a `keydown` of one of the four arrow keys,
and a click on an arrow button. -/
def callsHideHint : Event → Bool
  | .mousedown _ _ => true
  | .touchstart ts => decide (ts.length = 1)
  | .keydown k =>
    decide (k = "ArrowLeft" ∨ k = "ArrowRight" ∨ k = "ArrowUp" ∨ k = "ArrowDown")
  | .arrowClick _ => true
  | _ => false

/-- Interaction in the wording of the specification: any drag start
(`mousedown` or `touchstart`), any key press (`keydown`) or any arrow-button
click. -/
def isInteractionAsStated : Event → Bool
  | .mousedown _ _ => true
  | .touchstart _ => true
  | .keydown _ => true
  | .arrowClick _ => true
  | _ => false

/-! ## Render loop -/

/-- Constant `targetFPS` (line 336). -/
def targetFPS : ℚ := 60

/-- Constant `frameInterval` (line 337). -/
def frameInterval : ℚ := 1000 / targetFPS

/-- Subtraction of numbers, `none` being `NaN`. -/
def numSub : Option ℚ → Option ℚ → Option ℚ
  | some a, some b => some (a - b)
  | _, _ => none

/-- Comparison `a < b`; every comparison with `NaN` is false. -/
def numLt : Option ℚ → Option ℚ → Bool
  | some a, some b => decide (a < b)
  | _, _ => false

/-- Operator `%` of numbers, `none` being `NaN`; a zero divisor gives `NaN`. -/
def numRem : Option ℚ → Option ℚ → Option ℚ
  | some a, some b => if b = 0 then none else some (jsRem a b)
  | _, _ => none

/-- State of the render loop: the globe state, the variable `lastFrameTime`,
whether `renderer && scene && camera` holds, and counters of the calls made so
far to `requestAnimationFrame(animate)`, `updateGlobeRotation` and
`renderer.render`. -/
structure LoopState where
  globe : State
  lastFrameTime : Option ℚ
  sceneReady : Bool
  scheduled : ℕ
  updates : ℕ
  renders : ℕ
deriving DecidableEq

/-- Function `animate` (lines 339-354).  The argument is the timestamp as a
number: `none` is what arithmetic sees when the function is called with no
argument (`undefined` converts to `NaN`). -/
def animate (currentTime : Option ℚ) (l : LoopState) : LoopState :=
  let l1 := { l with scheduled := l.scheduled + 1 }
  let elapsed := numSub currentTime l1.lastFrameTime
  if numLt elapsed (some frameInterval) then l1
  else
    let l2 :=
      { l1 with
        lastFrameTime := numSub currentTime (numRem elapsed (some frameInterval)) }
    let l3 := { l2 with globe := updateGlobeRotation l2.globe, updates := l2.updates + 1 }
    if l3.sceneReady then { l3 with renders := l3.renders + 1 } else l3

/-- Loop state when `initGlobe` reaches line 65: `lastFrameTime` is `0`
(line 335) and renderer, scene and camera have been created. -/
def loopStart (s : State) : LoopState :=
  { globe := s, lastFrameTime := some 0, sceneReady := true
    scheduled := 0, updates := 0, renders := 0 }

/-- The render loop as the script starts it: `initGlobe` calls `animate()`
without an argument, then the scheduler calls `animate(t)` for each of the
timestamps `ts` in order. -/
def runLoop (s : State) (ts : List ℚ) : LoopState :=
  ts.foldl (fun l t => animate (some t) l) (animate none (loopStart s))

/-- The momentum phase of `updateGlobeRotation` up to, and not including, the
call of `constrainRotation` (lines 289-293). -/
def momentumPhase (s : State) : State :=
  let velocityX := s.velocityX * CONFIG.rotationDamping
  let velocityY := s.velocityY * CONFIG.rotationDamping
  { s with
    velocityX := velocityX
    velocityY := velocityY
    targetRotationX := s.targetRotationX + velocityX
    targetRotationY := s.targetRotationY + velocityY }

/-- The expression of line 317 evaluated in exact arithmetic. -/
def adjustedRotationYExact (rotationY : ℚ) : ℚ :=
  jsRem (jsRem rotationY 360 + 360) 360

/-- The expressions of lines 314-319 evaluated in exact arithmetic. -/
def normalizedAngleExact (length index : ℕ) (rotationY : ℚ) : ℚ :=
  let angle : ℚ := (360 / (length : ℚ)) * (index : ℚ)
  let itemAngle := jsRem (angle + 90 - adjustedRotationYExact rotationY + 180) 360
  if itemAngle > 180 then itemAngle - 360 else itemAngle

/-- No arithmetic operation of lines 314-319 rounds for the item at `index`
among `length` items at yaw `rotationY`: each exact result is itself a double
(the last subtraction is only performed when `itemAngle > 180`). -/
def NoRounding (length index : ℕ) (rotationY : ℚ) : Prop :=
  roundDouble (360 / (length : ℚ)) = 360 / (length : ℚ) ∧
  roundDouble (360 / (length : ℚ) * (index : ℚ)) = 360 / (length : ℚ) * (index : ℚ) ∧
  roundDouble (jsRem rotationY 360 + 360) = jsRem rotationY 360 + 360 ∧
  roundDouble (360 / (length : ℚ) * (index : ℚ) + 90)
    = 360 / (length : ℚ) * (index : ℚ) + 90 ∧
  roundDouble (360 / (length : ℚ) * (index : ℚ) + 90 - adjustedRotationYExact rotationY)
    = 360 / (length : ℚ) * (index : ℚ) + 90 - adjustedRotationYExact rotationY ∧
  roundDouble
      (360 / (length : ℚ) * (index : ℚ) + 90 - adjustedRotationYExact rotationY + 180)
    = 360 / (length : ℚ) * (index : ℚ) + 90 - adjustedRotationYExact rotationY + 180 ∧
  (180 < jsRem
      (360 / (length : ℚ) * (index : ℚ) + 90 - adjustedRotationYExact rotationY + 180) 360 →
    roundDouble (jsRem
        (360 / (length : ℚ) * (index : ℚ) + 90 - adjustedRotationYExact rotationY + 180) 360
      - 360)
    = jsRem
        (360 / (length : ℚ) * (index : ℚ) + 90 - adjustedRotationYExact rotationY + 180) 360
      - 360)

/-- The pitch invariant of the script: target pitch and rendered pitch both lie
between `-60` and `60`. -/
def PitchInRange (s : State) : Prop :=
  (-60 ≤ s.targetRotationX ∧ s.targetRotationX ≤ 60) ∧
    (-60 ≤ s.rotationX ∧ s.rotationX ≤ 60)

/-! ## Constraint and reachability lemmas -/

theorem constrainRotation_range (s : State) :
    -60 ≤ (constrainRotation s).targetRotationX ∧
      (constrainRotation s).targetRotationX ≤ 60 := by
  unfold constrainRotation CONFIG
  simp only
  split_ifs <;> constructor <;> simp_all

theorem constrainRotation_of_range (s : State)
    (h : -60 ≤ s.targetRotationX ∧ s.targetRotationX ≤ 60) :
    constrainRotation s = s := by
  unfold constrainRotation CONFIG
  simp only
  rw [if_neg (not_lt.mpr h.2), if_neg (not_lt.mpr h.1)]

theorem constrainRotation_above (s : State) (h : s.targetRotationX > 60) :
    (constrainRotation s).targetRotationX = 60 ∧ (constrainRotation s).velocityY = 0 := by
  unfold constrainRotation CONFIG
  simp only
  rw [if_pos h]
  norm_num

theorem constrainRotation_below (s : State) (h : s.targetRotationX < -60) :
    (constrainRotation s).targetRotationX = -60 ∧ (constrainRotation s).velocityY = 0 := by
  unfold constrainRotation CONFIG
  simp only
  have h0 : ¬ s.targetRotationX > 60 := by intro h1; linarith
  rw [if_neg h0, if_pos h]
  exact ⟨rfl, rfl⟩

@[simp] theorem constrainRotation_rotationX (s : State) :
    (constrainRotation s).rotationX = s.rotationX := by
  unfold constrainRotation; simp only; split_ifs <;> rfl

@[simp] theorem constrainRotation_rotationY (s : State) :
    (constrainRotation s).rotationY = s.rotationY := by
  unfold constrainRotation; simp only; split_ifs <;> rfl

@[simp] theorem constrainRotation_targetRotationY (s : State) :
    (constrainRotation s).targetRotationY = s.targetRotationY := by
  unfold constrainRotation; simp only; split_ifs <;> rfl

@[simp] theorem constrainRotation_velocityX (s : State) :
    (constrainRotation s).velocityX = s.velocityX := by
  unfold constrainRotation; simp only; split_ifs <;> rfl

@[simp] theorem constrainRotation_isDragging (s : State) :
    (constrainRotation s).isDragging = s.isDragging := by
  unfold constrainRotation; simp only; split_ifs <;> rfl

@[simp] theorem constrainRotation_isFirstInteraction (s : State) :
    (constrainRotation s).isFirstInteraction = s.isFirstInteraction := by
  unfold constrainRotation; simp only; split_ifs <;> rfl

@[simp] theorem constrainRotation_hintPresent (s : State) :
    (constrainRotation s).hintPresent = s.hintPresent := by
  unfold constrainRotation; simp only; split_ifs <;> rfl

@[simp] theorem constrainRotation_hintHideActions (s : State) :
    (constrainRotation s).hintHideActions = s.hintHideActions := by
  unfold constrainRotation; simp only; split_ifs <;> rfl

@[simp] theorem constrainRotation_items (s : State) :
    (constrainRotation s).items = s.items := by
  unfold constrainRotation; simp only; split_ifs <;> rfl

@[simp] theorem hideHint_rotationX (s : State) :
    (hideHintOnFirstInteraction s).rotationX = s.rotationX := by
  unfold hideHintOnFirstInteraction; simp only; split_ifs <;> rfl

@[simp] theorem hideHint_targetRotationX (s : State) :
    (hideHintOnFirstInteraction s).targetRotationX = s.targetRotationX := by
  unfold hideHintOnFirstInteraction; simp only; split_ifs <;> rfl

@[simp] theorem hideHint_targetRotationY (s : State) :
    (hideHintOnFirstInteraction s).targetRotationY = s.targetRotationY := by
  unfold hideHintOnFirstInteraction; simp only; split_ifs <;> rfl

@[simp] theorem hideHint_hintPresent (s : State) :
    (hideHintOnFirstInteraction s).hintPresent = s.hintPresent := by
  unfold hideHintOnFirstInteraction; simp only; split_ifs <;> rfl

theorem pitchInRange_constrain (s : State)
    (h : -60 ≤ s.rotationX ∧ s.rotationX ≤ 60) : PitchInRange (constrainRotation s) :=
  ⟨constrainRotation_range s, by simpa using h⟩

theorem pitchInRange_initial (hint : Bool) (items : List ItemStyle) :
    PitchInRange (initialState hint items) := by
  simp [PitchInRange, initialState]

theorem pitchInRange_update (s : State) (h : PitchInRange s) :
    PitchInRange (updateGlobeRotation s) := by
  obtain ⟨⟨h1, h2⟩, h3, h4⟩ := h
  have e1 : -60 ≤ s.rotationX + (s.targetRotationX - s.rotationX) * CONFIG.easing := by
    simp only [CONFIG]; norm_num; linarith
  have e2 : s.rotationX + (s.targetRotationX - s.rotationX) * CONFIG.easing ≤ 60 := by
    simp only [CONFIG]; norm_num; linarith
  unfold updateGlobeRotation
  simp only
  split_ifs with hd
  · refine ⟨?_, ?_⟩
    · exact constrainRotation_range _
    · simp only [constrainRotation_rotationX]; exact ⟨e1, e2⟩
  · exact ⟨⟨h1, h2⟩, e1, e2⟩

theorem pitchInRange_step (s : State) (e : Event) (h : PitchInRange s) :
    PitchInRange (step s e) := by
  cases e with
  | mousedown x y =>
    simp only [step, onMouseDown, PitchInRange, hideHint_rotationX, hideHint_targetRotationX]
    exact h
  | mousemove x y =>
    simp only [step, onMouseMove]
    split_ifs
    · exact h
    · exact pitchInRange_constrain _ h.2
  | mouseup => exact h
  | touchstart ts =>
    simp only [step, onTouchStart]
    split
    · simp only [PitchInRange, hideHint_rotationX, hideHint_targetRotationX]; exact h
    · exact h
  | touchmove ts =>
    simp only [step, onTouchMove]
    split
    · split_ifs
      · exact h
      · exact pitchInRange_constrain _ h.2
    · exact h
  | touchend => exact h
  | keydown k =>
    simp only [step, onKeyDown]
    apply pitchInRange_constrain
    split_ifs <;> simpa using h.2
  | arrowClick i =>
    simp only [step, onArrowClick, PitchInRange, hideHint_rotationX, hideHint_targetRotationX]
    exact h
  | frame => exact pitchInRange_update s h

theorem pitchInRange_run (es : List Event) (s : State) (h : PitchInRange s) :
    PitchInRange (run s es) := by
  induction es generalizing s with
  | nil => exact h
  | cons e es ih => exact ih (step s e) (pitchInRange_step s e h)

theorem pitchInRange_of_reachable (s : State) (h : Reachable s) : PitchInRange s := by
  obtain ⟨hint, items, es, rfl⟩ := h
  exact pitchInRange_run es _ (pitchInRange_initial hint items)

/-! ## Pitch bounds -/

/-- C1: from the initial state, after every finite sequence of events (mouse,
touch, keyboard, arrow-button click, per-frame update) with arbitrary pointer
coordinates, the target pitch `targetRotationX` lies in `[-60, 60]`. -/
theorem target_pitch_in_range (hint : Bool) (items : List ItemStyle) (es : List Event) :
    -60 ≤ (run (initialState hint items) es).targetRotationX ∧
      (run (initialState hint items) es).targetRotationX ≤ 60 :=
  (pitchInRange_run es _ (pitchInRange_initial hint items)).1

/-- C10: from the initial state, after every finite sequence of events, the
rendered pitch `rotationX` lies in `[-60, 60]`; no handler clamps it, the bound
follows from the clamp of the target and the easing step. -/
theorem current_pitch_in_range (hint : Bool) (items : List ItemStyle) (es : List Event) :
    -60 ≤ (run (initialState hint items) es).rotationX ∧
      (run (initialState hint items) es).rotationX ≤ 60 :=
  (pitchInRange_run es _ (pitchInRange_initial hint items)).2

/-! ## Drag past the bound -/

/-- C2: while dragging, a mouse move or a single-touch move whose scaled
vertical delta would take the target pitch above `60` (below `-60`) leaves
`targetRotationX` equal to `60` (to `-60`) and `velocityY` equal to `0`. -/
theorem drag_past_bound_clamps (s : State) (clientX clientY : ℚ)
    (hd : s.isDragging = true) :
    (s.targetRotationX + 0.5 * (clientY - s.lastY) > 60 →
      (onMouseMove clientX clientY s).targetRotationX = 60 ∧
      (onMouseMove clientX clientY s).velocityY = 0 ∧
      (onTouchMove [⟨clientX, clientY⟩] s).targetRotationX = 60 ∧
      (onTouchMove [⟨clientX, clientY⟩] s).velocityY = 0) ∧
    (s.targetRotationX + 0.5 * (clientY - s.lastY) < -60 →
      (onMouseMove clientX clientY s).targetRotationX = -60 ∧
      (onMouseMove clientX clientY s).velocityY = 0 ∧
      (onTouchMove [⟨clientX, clientY⟩] s).targetRotationX = -60 ∧
      (onTouchMove [⟨clientX, clientY⟩] s).velocityY = 0) := by
  have em : onMouseMove clientX clientY s = constrainRotation
      { s with
        velocityX := (clientX - s.lastX) * 0.5
        velocityY := (clientY - s.lastY) * 0.5
        targetRotationY := s.targetRotationY + (clientX - s.lastX) * 0.5
        targetRotationX := s.targetRotationX + (clientY - s.lastY) * 0.5
        lastX := clientX
        lastY := clientY } := by
    simp [onMouseMove, hd]
  have et : onTouchMove [⟨clientX, clientY⟩] s = onMouseMove clientX clientY s := by
    simp [onMouseMove, onTouchMove, hd]
  rw [et, em]
  constructor
  · intro h
    have h1 := constrainRotation_above
      { s with
        velocityX := (clientX - s.lastX) * 0.5
        velocityY := (clientY - s.lastY) * 0.5
        targetRotationY := s.targetRotationY + (clientX - s.lastX) * 0.5
        targetRotationX := s.targetRotationX + (clientY - s.lastY) * 0.5
        lastX := clientX
        lastY := clientY } (by show _ + _ * _ > _; linarith)
    exact ⟨h1.1, h1.2, h1.1, h1.2⟩
  · intro h
    have h1 := constrainRotation_below
      { s with
        velocityX := (clientX - s.lastX) * 0.5
        velocityY := (clientY - s.lastY) * 0.5
        targetRotationY := s.targetRotationY + (clientX - s.lastX) * 0.5
        targetRotationX := s.targetRotationX + (clientY - s.lastY) * 0.5
        lastX := clientX
        lastY := clientY } (by show _ + _ * _ < _; linarith)
    exact ⟨h1.1, h1.2, h1.1, h1.2⟩

theorem drag_past_bound_clamps_witness :
    ((run (initialState true []) [Event.mousedown 0 0]).isDragging = true ∧
      (run (initialState true []) [Event.mousedown 0 0]).targetRotationX
        + 0.5 * (200 - (run (initialState true []) [Event.mousedown 0 0]).lastY) > 60 ∧
      (run (initialState true []) [Event.mousedown 0 0]).targetRotationX
        + 0.5 * (-200 - (run (initialState true []) [Event.mousedown 0 0]).lastY) < -60) ∧
    ((onMouseMove 0 200 (run (initialState true []) [Event.mousedown 0 0])).targetRotationX
        = 60 ∧
      (onMouseMove 0 200 (run (initialState true []) [Event.mousedown 0 0])).velocityY = 0) ∧
    ((onTouchMove [⟨0, -200⟩]
        (run (initialState true []) [Event.mousedown 0 0])).targetRotationX = -60 ∧
      (onTouchMove [⟨0, -200⟩]
        (run (initialState true []) [Event.mousedown 0 0])).velocityY = 0) := by
  have hd : (run (initialState true []) [Event.mousedown 0 0]).isDragging = true := by
    simp [run, step, onMouseDown, hideHintOnFirstInteraction, initialState]
  have hb : (run (initialState true []) [Event.mousedown 0 0]).targetRotationX
        + 0.5 * (200 - (run (initialState true []) [Event.mousedown 0 0]).lastY) > 60 := by
    norm_num [run, step, onMouseDown, hideHintOnFirstInteraction, initialState]
  have hc : (run (initialState true []) [Event.mousedown 0 0]).targetRotationX
        + 0.5 * (-200 - (run (initialState true []) [Event.mousedown 0 0]).lastY) < -60 := by
    norm_num [run, step, onMouseDown, hideHintOnFirstInteraction, initialState]
  have h := (drag_past_bound_clamps _ 0 200 hd).1 hb
  have k := (drag_past_bound_clamps _ 0 (-200) hd).2 hc
  exact ⟨⟨hd, hb, hc⟩, ⟨h.1, h.2.1⟩, ⟨k.2.2.1, k.2.2.2⟩⟩

/-! ## One tick: easing and momentum -/

theorem updateGlobeRotation_rotation (s : State) :
    (updateGlobeRotation s).rotationX
        = s.rotationX + (s.targetRotationX - s.rotationX) * CONFIG.easing ∧
      (updateGlobeRotation s).rotationY
        = s.rotationY + (s.targetRotationY - s.rotationY) * CONFIG.easing := by
  unfold updateGlobeRotation
  simp only
  split_ifs <;> simp

theorem updateGlobeRotation_not_dragging (s : State) (h : s.isDragging = false) :
    (updateGlobeRotation s).velocityX = (constrainRotation (momentumPhase s)).velocityX ∧
      (updateGlobeRotation s).velocityY = (constrainRotation (momentumPhase s)).velocityY ∧
      (updateGlobeRotation s).targetRotationX
        = (constrainRotation (momentumPhase s)).targetRotationX ∧
      (updateGlobeRotation s).targetRotationY
        = (constrainRotation (momentumPhase s)).targetRotationY := by
  unfold updateGlobeRotation momentumPhase
  simp only [h, Bool.not_false, if_true]
  unfold constrainRotation
  simp only
  split_ifs <;> simp

theorem updateGlobeRotation_dragging (s : State) (h : s.isDragging = true) :
    (updateGlobeRotation s).velocityX = s.velocityX ∧
      (updateGlobeRotation s).velocityY = s.velocityY ∧
      (updateGlobeRotation s).targetRotationX = s.targetRotationX ∧
      (updateGlobeRotation s).targetRotationY = s.targetRotationY := by
  unfold updateGlobeRotation
  simp [h]

/-- C4: after `updateGlobeRotation` the current rotation on each axis is the old
current rotation plus `0.1` times the gap to the target as it was when the tick
started; with target `(50, 50)` and current `(0, 0)` the result is `(5, 5)`. -/
theorem easing_tick (s : State) :
    ((updateGlobeRotation s).rotationX
        = s.rotationX + 0.1 * (s.targetRotationX - s.rotationX) ∧
      (updateGlobeRotation s).rotationY
        = s.rotationY + 0.1 * (s.targetRotationY - s.rotationY)) ∧
    (s.targetRotationX = 50 → s.targetRotationY = 50 →
      s.rotationX = 0 → s.rotationY = 0 →
      (updateGlobeRotation s).rotationX = 5 ∧ (updateGlobeRotation s).rotationY = 5) := by
  obtain ⟨hx, hy⟩ := updateGlobeRotation_rotation s
  simp only [CONFIG] at hx hy
  refine ⟨⟨by rw [hx]; ring, by rw [hy]; ring⟩, ?_⟩
  intro a b c d
  rw [hx, hy, a, b, c, d]
  norm_num

theorem easing_tick_witness :
    (updateGlobeRotation
        ⟨0, 0, 50, 50, 0, 0, false, 0, 0, true, true, 0, false, []⟩).rotationX = 5 ∧
      (updateGlobeRotation
        ⟨0, 0, 50, 50, 0, 0, false, 0, 0, true, true, 0, false, []⟩).rotationY = 5 :=
  (easing_tick ⟨0, 0, 50, 50, 0, 0, false, 0, 0, true, true, 0, false, []⟩).2 rfl rfl rfl rfl

/-- C5: when not dragging, `updateGlobeRotation` multiplies both velocity
components by `0.95` and adds the new components to the target (`velocityX` to
`targetRotationX`, `velocityY` to `targetRotationY`) before `constrainRotation`
runs on the result; velocity `(10, 0)` becomes `(9.5, 0)` and the target pitch
before the clamp is the old one plus `9.5`.  When dragging, both velocity
components and both target components are left unchanged. -/
theorem momentum_tick (s : State) :
    (s.isDragging = false →
      ((momentumPhase s).velocityX = 0.95 * s.velocityX ∧
        (momentumPhase s).velocityY = 0.95 * s.velocityY ∧
        (momentumPhase s).targetRotationX = s.targetRotationX + (momentumPhase s).velocityX ∧
        (momentumPhase s).targetRotationY
          = s.targetRotationY + (momentumPhase s).velocityY) ∧
      ((updateGlobeRotation s).velocityX = (constrainRotation (momentumPhase s)).velocityX ∧
        (updateGlobeRotation s).velocityY = (constrainRotation (momentumPhase s)).velocityY ∧
        (updateGlobeRotation s).targetRotationX
          = (constrainRotation (momentumPhase s)).targetRotationX ∧
        (updateGlobeRotation s).targetRotationY
          = (constrainRotation (momentumPhase s)).targetRotationY) ∧
      (updateGlobeRotation s).velocityX = 0.95 * s.velocityX ∧
      (updateGlobeRotation s).targetRotationY = s.targetRotationY + 0.95 * s.velocityY ∧
      (s.velocityX = 10 → s.velocityY = 0 →
        (updateGlobeRotation s).velocityX = 9.5 ∧ (updateGlobeRotation s).velocityY = 0 ∧
        (momentumPhase s).targetRotationX = s.targetRotationX + 9.5)) ∧
    (s.isDragging = true →
      (updateGlobeRotation s).velocityX = s.velocityX ∧
      (updateGlobeRotation s).velocityY = s.velocityY ∧
      (updateGlobeRotation s).targetRotationX = s.targetRotationX ∧
      (updateGlobeRotation s).targetRotationY = s.targetRotationY) := by
  refine ⟨fun h => ?_, updateGlobeRotation_dragging s⟩
  obtain ⟨u1, u2, u3, u4⟩ := updateGlobeRotation_not_dragging s h
  have m1 : (momentumPhase s).velocityX = 0.95 * s.velocityX := by
    simp only [momentumPhase, CONFIG]; ring
  have m2 : (momentumPhase s).velocityY = 0.95 * s.velocityY := by
    simp only [momentumPhase, CONFIG]; ring
  have m3 : (momentumPhase s).targetRotationX
      = s.targetRotationX + (momentumPhase s).velocityX := rfl
  have m4 : (momentumPhase s).targetRotationY
      = s.targetRotationY + (momentumPhase s).velocityY := rfl
  refine ⟨⟨m1, m2, m3, m4⟩, ⟨u1, u2, u3, u4⟩, ?_, ?_, ?_⟩
  · rw [u1, constrainRotation_velocityX, m1]
  · rw [u4, constrainRotation_targetRotationY, m4, m2]
  · intro hx hy
    refine ⟨?_, ?_, ?_⟩
    · rw [u1, constrainRotation_velocityX, m1, hx]; norm_num
    · rw [u2]
      have hz : (momentumPhase s).velocityY = 0 := by rw [m2, hy]; norm_num
      unfold constrainRotation
      simp only
      split_ifs <;> simp [hz]
    · rw [m3, m1, hx]; norm_num

theorem momentum_tick_witness :
    ((updateGlobeRotation
        ⟨0, 0, 20, 0, 10, 0, false, 0, 0, false, true, 1, false, []⟩).velocityX = 9.5 ∧
      (updateGlobeRotation
        ⟨0, 0, 20, 0, 10, 0, false, 0, 0, false, true, 1, false, []⟩).velocityY = 0 ∧
      (momentumPhase
        ⟨0, 0, 20, 0, 10, 0, false, 0, 0, false, true, 1, false, []⟩).targetRotationX
          = 20 + 9.5) ∧
    ((updateGlobeRotation
        ⟨0, 0, 20, 0, 10, 3, true, 0, 0, false, true, 1, true, []⟩).velocityX = 10 ∧
      (updateGlobeRotation
        ⟨0, 0, 20, 0, 10, 3, true, 0, 0, false, true, 1, true, []⟩).velocityY = 3 ∧
      (updateGlobeRotation
        ⟨0, 0, 20, 0, 10, 3, true, 0, 0, false, true, 1, true, []⟩).targetRotationX = 20 ∧
      (updateGlobeRotation
        ⟨0, 0, 20, 0, 10, 3, true, 0, 0, false, true, 1, true, []⟩).targetRotationY = 0) :=
  ⟨((momentum_tick ⟨0, 0, 20, 0, 10, 0, false, 0, 0, false, true, 1, false, []⟩).1
      rfl).2.2.2.2 rfl rfl,
    (momentum_tick ⟨0, 0, 20, 0, 10, 3, true, 0, 0, false, true, 1, true, []⟩).2 rfl⟩

/-! ## Pitch momentum at the bound -/

theorem drag_to_bound_run :
    run (initialState true [])
        [Event.mousedown 0 0, Event.mousemove (-100) 200, Event.mouseup]
      = ⟨0, 0, 60, -50, -50, 0, false, -100, 200, false, true, 1, false, []⟩ := by
  have h1 : step (initialState true []) (Event.mousedown 0 0)
      = ⟨0, 0, 0, 0, 0, 0, true, 0, 0, false, true, 1, true, []⟩ := by
    simp [step, onMouseDown, hideHintOnFirstInteraction, initialState]
  have h2 : step ⟨0, 0, 0, 0, 0, 0, true, 0, 0, false, true, 1, true, []⟩
        (Event.mousemove (-100) 200)
      = ⟨0, 0, 60, -50, -50, 0, true, -100, 200, false, true, 1, true, []⟩ := by
    norm_num [step, onMouseMove, constrainRotation, CONFIG]
  have h3 : step ⟨0, 0, 60, -50, -50, 0, true, -100, 200, false, true, 1, true, []⟩
        Event.mouseup
      = ⟨0, 0, 60, -50, -50, 0, false, -100, 200, false, true, 1, false, []⟩ := by
    simp [step, onMouseUp]
  simp only [run, List.foldl, h1, h2, h3]

/-- C3 (evaluation of the code at the failing input): `mousedown(0, 0)`, then
`mousemove(-100, 200)`, then `mouseup`.  The move takes the target pitch to
`100`, so `constrainRotation` clamps it to `60` and zeroes `velocityY`; but the
per-frame update adds `velocityX` to `targetRotationX`, and `velocityX` is still
`-50`: the next non-dragging tick moves the target pitch from `60` to `12.5`. -/
theorem clamp_keeps_pitch_momentum :
    (constrainRotation
        ⟨0, 0, 100, -50, -50, 100, true, -100, 200, false, true, 1, true, []⟩).velocityX
          = -50 ∧
      (run (initialState true [])
        [Event.mousedown 0 0, Event.mousemove (-100) 200, Event.mouseup]).targetRotationX
          = 60 ∧
      (run (initialState true [])
        [Event.mousedown 0 0, Event.mousemove (-100) 200, Event.mouseup]).velocityY = 0 ∧
      (run (initialState true [])
        [Event.mousedown 0 0, Event.mousemove (-100) 200, Event.mouseup]).velocityX = -50 ∧
      (run (initialState true [])
        [Event.mousedown 0 0, Event.mousemove (-100) 200, Event.mouseup]).isDragging
          = false ∧
      (updateGlobeRotation (run (initialState true [])
        [Event.mousedown 0 0, Event.mousemove (-100) 200, Event.mouseup])).targetRotationX
          = 25 / 2 := by
  rw [drag_to_bound_run]
  refine ⟨by simp, rfl, rfl, rfl, rfl, ?_⟩
  norm_num [updateGlobeRotation, constrainRotation, CONFIG]

/-! ## Keyboard steps -/

theorem onKeyDown_ArrowRight (s : State) :
    onKeyDown "ArrowRight" s = constrainRotation
      (hideHintOnFirstInteraction { s with targetRotationY := s.targetRotationY + 5 }) := by
  simp +decide [onKeyDown]

theorem onKeyDown_ArrowUp (s : State) :
    onKeyDown "ArrowUp" s = constrainRotation
      (hideHintOnFirstInteraction { s with targetRotationX := s.targetRotationX - 5 }) := by
  simp +decide [onKeyDown]

theorem drag_to_lower_bound_run :
    run (initialState true []) [Event.mousedown 0 0, Event.mousemove 0 (-200)]
      = ⟨0, 0, -60, 0, 0, 0, true, 0, -200, false, true, 1, true, []⟩ := by
  have h1 : step (initialState true []) (Event.mousedown 0 0)
      = ⟨0, 0, 0, 0, 0, 0, true, 0, 0, false, true, 1, true, []⟩ := by
    simp [step, onMouseDown, hideHintOnFirstInteraction, initialState]
  have h2 : step ⟨0, 0, 0, 0, 0, 0, true, 0, 0, false, true, 1, true, []⟩
        (Event.mousemove 0 (-200))
      = ⟨0, 0, -60, 0, 0, 0, true, 0, -200, false, true, 1, true, []⟩ := by
    norm_num [step, onMouseMove, constrainRotation, CONFIG]
  simp only [run, List.foldl, h1, h2]

/-- C6 (as stated, refuted): in the reachable state after `mousedown(0, 0)` and
`mousemove(0, -200)` the target pitch is `-60`, and a keydown of ArrowUp leaves
it at `-60`, which is not the old value minus `5`. -/
theorem arrowUp_at_bound_counterexample :
    Reachable (run (initialState true []) [Event.mousedown 0 0, Event.mousemove 0 (-200)]) ∧
      (onKeyDown "ArrowUp"
        (run (initialState true [])
          [Event.mousedown 0 0, Event.mousemove 0 (-200)])).targetRotationX = -60 ∧
      (onKeyDown "ArrowUp"
        (run (initialState true [])
          [Event.mousedown 0 0, Event.mousemove 0 (-200)])).targetRotationX
        ≠ (run (initialState true [])
          [Event.mousedown 0 0, Event.mousemove 0 (-200)]).targetRotationX - 5 := by
  refine ⟨⟨true, [], _, rfl⟩, ?_⟩
  rw [drag_to_lower_bound_run]
  have h : (onKeyDown "ArrowUp"
      ⟨0, 0, -60, 0, 0, 0, true, 0, -200, false, true, 1, true, []⟩).targetRotationX
        = -60 := by
    rw [onKeyDown_ArrowUp]
    norm_num [hideHintOnFirstInteraction, constrainRotation, CONFIG]
  rw [h]
  norm_num

/-- C6 (amended): in every reachable state a keydown of ArrowRight leaves
`targetRotationY` equal to its old value plus `5`, and a keydown of ArrowUp
leaves `targetRotationX` equal to its old value minus `5` when that is at least
`-60`, and equal to `-60` otherwise. -/
theorem keyboard_steps (s : State) (h : Reachable s) :
    (onKeyDown "ArrowRight" s).targetRotationY = s.targetRotationY + 5 ∧
      (onKeyDown "ArrowUp" s).targetRotationX = max (s.targetRotationX - 5) (-60) := by
  obtain ⟨⟨h1, h2⟩, -⟩ := pitchInRange_of_reachable s h
  constructor
  · rw [onKeyDown_ArrowRight]
    simp
  · rw [onKeyDown_ArrowUp]
    by_cases hc : s.targetRotationX - 5 < -60
    · rw [(constrainRotation_below _ (by simpa using hc)).1, max_eq_right hc.le]
    · rw [constrainRotation_of_range _ (by
        simp only [hideHint_targetRotationX]
        exact ⟨not_lt.mp hc, by linarith⟩)]
      simp only [hideHint_targetRotationX]
      rw [max_eq_left (not_lt.mp hc)]

theorem keyboard_steps_witness :
    Reachable (initialState true []) ∧
      (onKeyDown "ArrowRight" (initialState true [])).targetRotationY
        = (initialState true []).targetRotationY + 5 ∧
      (onKeyDown "ArrowUp" (initialState true [])).targetRotationX
        = max ((initialState true []).targetRotationX - 5) (-60) :=
  ⟨⟨true, [], [], rfl⟩, keyboard_steps (initialState true []) ⟨true, [], [], rfl⟩⟩

/-! ## Render loop -/

theorem animate_undefined (l : LoopState) :
    animate none l =
      { globe := updateGlobeRotation l.globe
        lastFrameTime := none
        sceneReady := l.sceneReady
        scheduled := l.scheduled + 1
        updates := l.updates + 1
        renders := if l.sceneReady then l.renders + 1 else l.renders } := by
  cases hr : l.sceneReady <;> simp [animate, numSub, numLt, hr]

theorem animate_of_nan (t : Option ℚ) (l : LoopState) (h : l.lastFrameTime = none) :
    animate t l =
      { globe := updateGlobeRotation l.globe
        lastFrameTime := none
        sceneReady := l.sceneReady
        scheduled := l.scheduled + 1
        updates := l.updates + 1
        renders := if l.sceneReady then l.renders + 1 else l.renders } := by
  cases t <;> cases hr : l.sceneReady <;> simp [animate, numSub, numLt, numRem, h, hr]

theorem animate_skips (t last : ℚ) (l : LoopState) (h : l.lastFrameTime = some last)
    (hlt : t - last < frameInterval) :
    animate (some t) l = { l with scheduled := l.scheduled + 1 } := by
  simp [animate, numSub, numLt, h, hlt]

theorem foldl_animate_of_nan (ts : List ℚ) (l : LoopState)
    (h : l.lastFrameTime = none) (hr : l.sceneReady = true) :
    (ts.foldl (fun l t => animate (some t) l) l).lastFrameTime = none ∧
      (ts.foldl (fun l t => animate (some t) l) l).scheduled = l.scheduled + ts.length ∧
      (ts.foldl (fun l t => animate (some t) l) l).updates = l.updates + ts.length ∧
      (ts.foldl (fun l t => animate (some t) l) l).renders = l.renders + ts.length := by
  induction ts generalizing l with
  | nil => simp [h]
  | cons t ts ih =>
    have e := animate_of_nan (some t) l h
    have i := ih (animate (some t) l) (by rw [e]) (by rw [e]; exact hr)
    simp only [List.foldl, List.length_cons]
    rw [e] at i ⊢
    simp only [hr, if_true] at i ⊢
    obtain ⟨i1, i2, i3, i4⟩ := i
    refine ⟨i1, ?_, ?_, ?_⟩ <;> omega

/-- C9 (evaluation of the code at the failing input): the first call,
`animate()` without a timestamp, stores `NaN` in `lastFrameTime`; from then on
`elapsed` is `NaN`, the test `elapsed < frameInterval` is false and no call is
ever skipped.  For every list of timestamps each call updates, renders and
reschedules; with the timestamps `1000` and `1001` the call at `1001` runs
`updateGlobeRotation` and `renderer.render` one millisecond after the frame
executed at `1000`. -/
theorem throttle_never_skips (s : State) (ts : List ℚ) :
    ((runLoop s ts).lastFrameTime = none ∧
      (runLoop s ts).scheduled = ts.length + 1 ∧
      (runLoop s ts).updates = ts.length + 1 ∧
      (runLoop s ts).renders = ts.length + 1) ∧
    ((1001 : ℚ) - 1000 < frameInterval ∧
      (runLoop s [1000]).updates = 2 ∧ (runLoop s [1000]).renders = 2 ∧
      (runLoop s [1000, 1001]).updates = 3 ∧ (runLoop s [1000, 1001]).renders = 3 ∧
      (runLoop s [1000, 1001]).scheduled = 3) := by
  have e : animate none (loopStart s) = ⟨updateGlobeRotation s, none, true, 1, 1, 1⟩ := by
    rw [animate_undefined]; rfl
  have start : ∀ us : List ℚ,
      (runLoop s us).lastFrameTime = none ∧
        (runLoop s us).scheduled = us.length + 1 ∧
        (runLoop s us).updates = us.length + 1 ∧
        (runLoop s us).renders = us.length + 1 := by
    intro us
    obtain ⟨i1, i2, i3, i4⟩ :=
      foldl_animate_of_nan us ⟨updateGlobeRotation s, none, true, 1, 1, 1⟩ rfl rfl
    unfold runLoop
    rw [e]
    refine ⟨i1, ?_, ?_, ?_⟩
    · rw [i2]; exact Nat.add_comm _ _
    · rw [i3]; exact Nat.add_comm _ _
    · rw [i4]; exact Nat.add_comm _ _
  refine ⟨start ts, ?_, (start [1000]).2.2.1, (start [1000]).2.2.2,
    (start [1000, 1001]).2.2.1, (start [1000, 1001]).2.2.2, (start [1000, 1001]).2.1⟩
  norm_num [frameInterval, targetFPS]

/-! ## The hint -/

theorem hideHint_flags (s : State) :
    (hideHintOnFirstInteraction s).isFirstInteraction = false ∧
      (hideHintOnFirstInteraction s).hintHideActions
        = (if s.isFirstInteraction && s.hintPresent then s.hintHideActions + 1
          else s.hintHideActions) := by
  unfold hideHintOnFirstInteraction
  cases h1 : s.isFirstInteraction <;> cases h2 : s.hintPresent <;> simp [h1, h2]

theorem updateGlobeRotation_flags (s : State) :
    (updateGlobeRotation s).hintPresent = s.hintPresent ∧
      (updateGlobeRotation s).isFirstInteraction = s.isFirstInteraction ∧
      (updateGlobeRotation s).hintHideActions = s.hintHideActions := by
  unfold updateGlobeRotation
  simp only
  split_ifs <;> simp

theorem onMouseMove_flags (x y : ℚ) (s : State) :
    (onMouseMove x y s).hintPresent = s.hintPresent ∧
      (onMouseMove x y s).isFirstInteraction = s.isFirstInteraction ∧
      (onMouseMove x y s).hintHideActions = s.hintHideActions := by
  unfold onMouseMove
  split_ifs <;> simp

theorem onTouchStart_flags (ts : List Touch) (s : State) :
    (onTouchStart ts s).hintPresent = s.hintPresent ∧
      (onTouchStart ts s).isFirstInteraction
        = (s.isFirstInteraction && !decide (ts.length = 1)) ∧
      (onTouchStart ts s).hintHideActions
        = (if s.isFirstInteraction && s.hintPresent && decide (ts.length = 1)
          then s.hintHideActions + 1 else s.hintHideActions) := by
  match ts with
  | [] => simp [onTouchStart]
  | [t] => simp [onTouchStart, hideHint_flags]
  | _ :: _ :: _ => simp [onTouchStart]

theorem onTouchMove_flags (ts : List Touch) (s : State) :
    (onTouchMove ts s).hintPresent = s.hintPresent ∧
      (onTouchMove ts s).isFirstInteraction = s.isFirstInteraction ∧
      (onTouchMove ts s).hintHideActions = s.hintHideActions := by
  unfold onTouchMove
  split
  · split_ifs <;> simp
  · simp

theorem onKeyDown_flags (k : String) (s : State) :
    (onKeyDown k s).hintPresent = s.hintPresent ∧
      (onKeyDown k s).isFirstInteraction
        = (s.isFirstInteraction && !callsHideHint (Event.keydown k)) ∧
      (onKeyDown k s).hintHideActions
        = (if s.isFirstInteraction && s.hintPresent && callsHideHint (Event.keydown k)
          then s.hintHideActions + 1 else s.hintHideActions) := by
  by_cases k1 : k = "ArrowLeft"
  · subst k1; simp +decide [onKeyDown, callsHideHint, hideHint_flags]
  by_cases k2 : k = "ArrowRight"
  · subst k2; simp +decide [onKeyDown, callsHideHint, hideHint_flags]
  by_cases k3 : k = "ArrowUp"
  · subst k3; simp +decide [onKeyDown, callsHideHint, hideHint_flags]
  by_cases k4 : k = "ArrowDown"
  · subst k4; simp +decide [onKeyDown, callsHideHint, hideHint_flags]
  simp [onKeyDown, callsHideHint, k1, k2, k3, k4]

theorem step_flags (s : State) (e : Event) :
    (step s e).hintPresent = s.hintPresent ∧
      (step s e).isFirstInteraction = (s.isFirstInteraction && !callsHideHint e) ∧
      (step s e).hintHideActions
        = (if s.isFirstInteraction && s.hintPresent && callsHideHint e
          then s.hintHideActions + 1 else s.hintHideActions) := by
  cases e with
  | mousedown x y => simp [step, onMouseDown, callsHideHint, hideHint_flags]
  | mousemove x y => simpa [step, callsHideHint] using onMouseMove_flags x y s
  | mouseup => simp [step, onMouseUp, callsHideHint]
  | touchstart ts => simpa [step, callsHideHint] using onTouchStart_flags ts s
  | touchmove ts => simpa [step, callsHideHint] using onTouchMove_flags ts s
  | touchend => simp [step, onTouchEnd, callsHideHint]
  | keydown k => exact onKeyDown_flags k s
  | arrowClick i => simp [step, onArrowClick, callsHideHint, hideHint_flags]
  | frame => simpa [step, callsHideHint] using updateGlobeRotation_flags s

theorem hidesHint_eq (s : State) (e : Event) :
    hidesHint s e = (s.isFirstInteraction && s.hintPresent && callsHideHint e) := by
  unfold hidesHint
  rw [(step_flags s e).2.2]
  cases s.isFirstInteraction <;> cases s.hintPresent <;> cases callsHideHint e <;> simp

theorem hideTrace_of_not_first (es : List Event) (s : State)
    (h : (s.isFirstInteraction && s.hintPresent) = false) :
    hideTrace s es = es.map (fun _ => false) := by
  induction es generalizing s with
  | nil => rfl
  | cons e es ih =>
    obtain ⟨f1, f2, -⟩ := step_flags s e
    have h2 : ((step s e).isFirstInteraction && (step s e).hintPresent) = false := by
      rw [f1, f2]
      revert h
      cases s.isFirstInteraction <;> cases s.hintPresent <;> simp
    simp only [hideTrace, List.map_cons, hidesHint_eq, h, Bool.false_and, ih _ h2]

theorem hideTrace_of_first (es : List Event) (s : State)
    (h1 : s.isFirstInteraction = true) (h2 : s.hintPresent = true) :
    hideTrace s es = firstOnly (es.map callsHideHint) := by
  induction es generalizing s with
  | nil => rfl
  | cons e es ih =>
    obtain ⟨f1, f2, -⟩ := step_flags s e
    cases hc : callsHideHint e
    · simp only [hideTrace, List.map_cons, hidesHint_eq, h1, h2, hc, Bool.and_false, firstOnly]
      rw [ih (step s e) (by rw [f2, h1, hc]; rfl) (by rw [f1, h2])]
    · simp only [hideTrace, List.map_cons, hidesHint_eq, h1, h2, hc, Bool.and_self, firstOnly]
      rw [hideTrace_of_not_first es (step s e) (by rw [f2, h1, hc]; rfl)]
      simp

theorem count_map_false {α : Type} (l : List α) :
    (l.map (fun _ => false)).count true = 0 := by
  rw [List.count_eq_zero]
  simp

theorem count_firstOnly (bs : List Bool) : (firstOnly bs).count true ≤ 1 := by
  induction bs with
  | nil => simp [firstOnly]
  | cons b bs ih =>
    cases b
    · simpa [firstOnly] using ih
    · simp only [firstOnly, List.count_cons_self, count_map_false]
      exact le_refl _

theorem run_isFirstInteraction (es : List Event) (s : State) :
    (run s es).isFirstInteraction = (s.isFirstInteraction && !es.any callsHideHint) := by
  induction es generalizing s with
  | nil => simp [run]
  | cons e es ih =>
    have h := ih (step s e)
    simp only [run, List.foldl] at h ⊢
    rw [h, (step_flags s e).2.1, List.any_cons]
    cases s.isFirstInteraction <;> cases callsHideHint e <;> simp

/-- C7 (as stated, refuted): a keydown of a key that is not an arrow key, and a
touchstart with two touches, are a key press and a drag start in the wording of
the claim, yet neither hides the hint; the hint is hidden at the later
`mousedown`, which is not the first such event. -/
theorem hint_first_interaction_counterexample :
    (hideTrace (initialState true []) [Event.keydown "a", Event.mousedown 0 0]
        = [false, true] ∧
      firstOnly ([Event.keydown "a", Event.mousedown 0 0].map isInteractionAsStated)
        = [true, false]) ∧
    (hideTrace (initialState true [])
        [Event.touchstart [⟨0, 0⟩, ⟨10, 10⟩], Event.mousedown 0 0] = [false, true] ∧
      firstOnly ([Event.touchstart [⟨0, 0⟩, ⟨10, 10⟩], Event.mousedown 0 0].map
        isInteractionAsStated) = [true, false]) := by
  refine ⟨⟨?_, rfl⟩, ?_, rfl⟩
  · rw [hideTrace_of_first _ _ rfl rfl]
    simp +decide [callsHideHint, firstOnly]
  · rw [hideTrace_of_first _ _ rfl rfl]
    simp +decide [callsHideHint, firstOnly]

/-- C7 (amended): on a page with a hint, for every finite sequence of events
from the initial state, the hint-hide action is performed at the first event
that is a `mousedown`, a `touchstart` with exactly one touch, a `keydown` of one
of the four arrow keys or an arrow-button click, and at no other event; with or
without a hint it is performed at most once in the whole sequence; and
`isFirstInteraction` is false after a run exactly when it was false before or
such an event occurred, so once false it stays false. -/
theorem hint_hidden_once (items : List ItemStyle) (es : List Event) :
    hideTrace (initialState true items) es = firstOnly (es.map callsHideHint) ∧
      (∀ hint : Bool, (hideTrace (initialState hint items) es).count true ≤ 1) ∧
      (∀ (s : State) (fs : List Event),
        (run s fs).isFirstInteraction = (s.isFirstInteraction && !fs.any callsHideHint)) ∧
      (∀ (s : State) (fs : List Event),
        s.isFirstInteraction = false → (run s fs).isFirstInteraction = false) := by
  refine ⟨hideTrace_of_first es _ rfl rfl, ?_, fun s fs => run_isFirstInteraction fs s, ?_⟩
  · intro hint
    cases hint
    · rw [hideTrace_of_not_first es (initialState false items) rfl, count_map_false]
      exact Nat.zero_le _
    · rw [hideTrace_of_first es _ rfl rfl]
      exact count_firstOnly _
  · intro s fs h
    rw [run_isFirstInteraction, h]
    rfl

theorem hint_hidden_once_witness :
    (step (initialState true []) (Event.arrowClick 0)).isFirstInteraction = false ∧
      (run (step (initialState true []) (Event.arrowClick 0))
        [Event.keydown "ArrowLeft", Event.frame]).isFirstInteraction = false :=
  have h : (step (initialState true []) (Event.arrowClick 0)).isFirstInteraction = false := by
    simp [step, onArrowClick, hideHint_flags]
  ⟨h, (hint_hidden_once [] []).2.2.2 _ _ h⟩

/-! ## Backface culling of the timeline items -/

theorem jsRem_congr (a : ℚ) : ∃ k : ℤ, a - jsRem a 360 = 360 * (k : ℚ) :=
  ⟨jsTrunc (a / 360), by unfold jsRem; ring⟩

theorem jsRem_range_of_nonneg (a : ℚ) (h : 0 ≤ a) :
    0 ≤ jsRem a 360 ∧ jsRem a 360 < 360 := by
  have hq : 0 ≤ a / 360 := by positivity
  have e : a = 360 * (a / 360) := by ring
  have h1 := Int.floor_le (a / 360)
  have h2 := Int.lt_floor_add_one (a / 360)
  unfold jsRem jsTrunc
  rw [if_pos hq]
  constructor <;> linarith

theorem jsRem_range_of_neg (a : ℚ) (h : a < 0) :
    -360 < jsRem a 360 ∧ jsRem a 360 ≤ 0 := by
  have hq : ¬ 0 ≤ a / 360 := by
    have : a / 360 < 0 := div_neg_of_neg_of_pos h (by norm_num)
    exact not_le.mpr this
  have e : a = 360 * (a / 360) := by ring
  have h1 := Int.le_ceil (a / 360)
  have h2 := Int.ceil_lt_add_one (a / 360)
  unfold jsRem jsTrunc
  rw [if_neg hq]
  constructor <;> linarith

theorem eq_zero_of_small_multiple (x : ℚ) (k : ℤ) (h : x = 360 * (k : ℚ))
    (h1 : -360 < x) (h2 : x < 360) : x = 0 := by
  have a1 : (-1 : ℚ) < (k : ℚ) := by linarith
  have a2 : (k : ℚ) < 1 := by linarith
  have b1 : (-1 : ℤ) < k := by exact_mod_cast a1
  have b2 : k < 1 := by exact_mod_cast a2
  have b3 : k = 0 := by omega
  rw [h, b3]
  norm_num

theorem adjustedRotationYExact_range (r : ℚ) :
    0 ≤ adjustedRotationYExact r ∧ adjustedRotationYExact r < 360 := by
  unfold adjustedRotationYExact
  apply jsRem_range_of_nonneg
  rcases le_or_lt 0 r with h | h
  · have := (jsRem_range_of_nonneg r h).1
    linarith
  · have := (jsRem_range_of_neg r h).1
    linarith

theorem adjustedRotationYExact_congr (r : ℚ) :
    ∃ k : ℤ, r - adjustedRotationYExact r = 360 * (k : ℚ) := by
  obtain ⟨k1, h1⟩ := jsRem_congr r
  obtain ⟨k2, h2⟩ := jsRem_congr (jsRem r 360 + 360)
  refine ⟨k1 + k2 - 1, ?_⟩
  unfold adjustedRotationYExact
  push_cast
  linarith

theorem adjustedRotationYExact_periodic (r : ℚ) (m : ℤ) :
    adjustedRotationYExact (r + 360 * (m : ℚ)) = adjustedRotationYExact r := by
  obtain ⟨k1, h1⟩ := adjustedRotationYExact_congr (r + 360 * (m : ℚ))
  obtain ⟨k2, h2⟩ := adjustedRotationYExact_congr r
  obtain ⟨a1, a2⟩ := adjustedRotationYExact_range (r + 360 * (m : ℚ))
  obtain ⟨b1, b2⟩ := adjustedRotationYExact_range r
  have h := eq_zero_of_small_multiple
    (adjustedRotationYExact (r + 360 * (m : ℚ)) - adjustedRotationYExact r) (m - k1 + k2)
    (by push_cast; linarith) (by linarith) (by linarith)
  linarith

theorem normalizedAngleExact_periodic (length index : ℕ) (r : ℚ) (m : ℤ) :
    normalizedAngleExact length index (r + 360 * (m : ℚ)) = normalizedAngleExact length index r := by
  unfold normalizedAngleExact
  rw [adjustedRotationYExact_periodic]

theorem normalizedAngleExact_spec (length index : ℕ) (r : ℚ) :
    (-180 < normalizedAngleExact length index r ∧ normalizedAngleExact length index r ≤ 180) ∧
      ∃ k : ℤ, 360 * (index : ℚ) / (length : ℚ) + 270 - r - normalizedAngleExact length index r
        = 360 * (k : ℚ) := by
  obtain ⟨c1, c2⟩ := adjustedRotationYExact_range r
  obtain ⟨ka, ha⟩ := adjustedRotationYExact_congr r
  have hang : 0 ≤ (360 / (length : ℚ)) * (index : ℚ) := by positivity
  obtain ⟨ky, hy⟩ :=
    jsRem_congr ((360 / (length : ℚ)) * (index : ℚ) + 90 - adjustedRotationYExact r + 180)
  have hlow : -180 <
      jsRem ((360 / (length : ℚ)) * (index : ℚ) + 90 - adjustedRotationYExact r + 180) 360 := by
    rcases le_or_lt 0
      ((360 / (length : ℚ)) * (index : ℚ) + 90 - adjustedRotationYExact r + 180) with h | h
    · have := (jsRem_range_of_nonneg _ h).1
      linarith
    · obtain ⟨d1, d2⟩ := jsRem_range_of_neg _ h
      have z := eq_zero_of_small_multiple _ ky hy (by linarith) (by linarith)
      linarith
  have hup :
      jsRem ((360 / (length : ℚ)) * (index : ℚ) + 90 - adjustedRotationYExact r + 180) 360
        < 360 := by
    rcases le_or_lt 0
      ((360 / (length : ℚ)) * (index : ℚ) + 90 - adjustedRotationYExact r + 180) with h | h
    · exact (jsRem_range_of_nonneg _ h).2
    · have := (jsRem_range_of_neg _ h).2
      linarith
  have hdiv : 360 * (index : ℚ) / (length : ℚ) = (360 / (length : ℚ)) * (index : ℚ) := by
    ring
  unfold normalizedAngleExact
  simp only
  split_ifs with hgt
  · refine ⟨⟨by linarith, by linarith⟩, ky - ka + 1, ?_⟩
    push_cast
    rw [hdiv]
    linarith
  · refine ⟨⟨hlow, not_lt.mp hgt⟩, ky - ka, ?_⟩
    push_cast
    rw [hdiv]
    linarith

theorem roundHalfEven_of_near (q : ℚ) (m : ℤ) (h : |q - (m : ℚ)| < 1 / 2) :
    roundHalfEven q = m := by
  rw [abs_lt] at h
  obtain ⟨h1, h2⟩ := h
  unfold roundHalfEven
  rcases le_or_lt (m : ℚ) q with hm | hm
  · have hf : ⌊q⌋ = m := by
      rw [Int.floor_eq_iff]
      constructor
      · exact hm
      · linarith
    rw [hf, if_pos (by linarith)]
  · have hf : ⌊q⌋ = m - 1 := by
      rw [Int.floor_eq_iff]
      push_cast
      constructor <;> linarith
    rw [hf]
    push_cast
    rw [if_neg (by linarith), if_pos (by linarith)]
    ring

theorem log_two_eq (x : ℚ) (e : ℤ) (h1 : (2 : ℚ) ^ e ≤ |x|) (h2 : |x| < (2 : ℚ) ^ (e + 1)) :
    Int.log 2 |x| = e := by
  have hpos : 0 < |x| := lt_of_lt_of_le (by positivity) h1
  have a : e ≤ Int.log 2 |x| := by
    rw [← Int.zpow_le_iff_le_log (by norm_num) hpos]
    exact_mod_cast h1
  have b : Int.log 2 |x| < e + 1 := by
    rw [← Int.lt_zpow_iff_log_lt (by norm_num) hpos]
    exact_mod_cast h2
  omega

theorem roundDouble_of_near (x y : ℚ) (e m : ℤ) (he : -1022 ≤ e)
    (h1 : (2 : ℚ) ^ e ≤ |x|) (h2 : |x| < (2 : ℚ) ^ (e + 1))
    (hy : y = (m : ℚ) * 2 ^ (e - 52)) (hd : |x - y| < 2 ^ (e - 53)) :
    roundDouble x = y := by
  have hx : x ≠ 0 := by
    intro h0
    rw [h0, abs_zero] at h1
    exact absurd h1 (not_le.mpr (by positivity))
  have hu : (0 : ℚ) < 2 ^ (e - 52) := by positivity
  have hhalf : (2 : ℚ) ^ (e - 53) = 2 ^ (e - 52) / 2 := by
    rw [show e - 52 = (e - 53) + 1 by ring, zpow_add_one₀ (by norm_num)]
    ring
  have hq : |x / 2 ^ (e - 52) - (m : ℚ)| < 1 / 2 := by
    have e1 : x / 2 ^ (e - 52) - (m : ℚ) = (x - y) / 2 ^ (e - 52) := by
      rw [hy]; field_simp; ring
    rw [e1, abs_div, abs_of_pos hu, div_lt_iff₀ hu]
    rw [hhalf] at hd
    linarith
  unfold roundDouble
  rw [if_neg hx, log_two_eq x e h1 h2, max_eq_left he, roundHalfEven_of_near _ m hq, hy]

theorem roundDouble_intCast (n : ℤ) (h : |(n : ℚ)| < 2 ^ (53 : ℤ)) :
    roundDouble (n : ℚ) = (n : ℚ) := by
  by_cases h0 : (n : ℚ) = 0
  · rw [h0]; simp [roundDouble]
  have hn : n ≠ 0 := by exact_mod_cast h0
  have hpos : (0 : ℚ) < |(n : ℚ)| := abs_pos.mpr h0
  have hone : (1 : ℚ) ≤ |(n : ℚ)| := by
    have : (1 : ℤ) ≤ |n| := Int.one_le_abs hn
    exact_mod_cast this
  have a : 0 ≤ Int.log 2 |(n : ℚ)| := by
    rw [← Int.zpow_le_iff_le_log (by norm_num) hpos]
    simpa using hone
  have b : Int.log 2 |(n : ℚ)| < 53 := by
    rw [← Int.lt_zpow_iff_log_lt (by norm_num) hpos]
    exact_mod_cast h
  obtain ⟨k, hk⟩ : ∃ k : ℕ, Int.log 2 |(n : ℚ)| - 52 = -(k : ℤ) :=
    ⟨(52 - Int.log 2 |(n : ℚ)|).toNat, by omega⟩
  have hmax : max (Int.log 2 |(n : ℚ)|) (-1022) = Int.log 2 |(n : ℚ)| :=
    max_eq_left (by omega)
  unfold roundDouble
  rw [if_neg h0, hmax, hk, zpow_neg, zpow_natCast]
  have hq : (n : ℚ) / ((2 : ℚ) ^ k)⁻¹ = ((n * 2 ^ k : ℤ) : ℚ) := by
    push_cast; field_simp
  rw [hq, roundHalfEven_of_near _ (n * 2 ^ k) (by simp)]
  push_cast
  field_simp

theorem isBackSide_iff (length index : ℕ) (r : ℚ) :
    isBackSide length index r = true ↔ 90 < |normalizedAngle length index r| := by
  unfold isBackSide
  rw [Bool.or_eq_true, decide_eq_true_eq, decide_eq_true_eq, lt_abs]
  constructor
  · rintro (h | h)
    · exact Or.inl h
    · exact Or.inr (by linarith)
  · rintro (h | h)
    · exact Or.inl h
    · exact Or.inr (by linarith)

theorem updateGlobeRotation_items (s : State) (i : ℕ) (hi : i < s.items.length) :
    (updateGlobeRotation s).items[i]?
      = some (timelineItemStyle s.items.length i (updateGlobeRotation s).rotationX
          (updateGlobeRotation s).rotationY) := by
  unfold updateGlobeRotation
  simp only
  split_ifs <;> simp [hi]

theorem normalizedAngle_of_noRounding (length index : ℕ) (r : ℚ)
    (h : NoRounding length index r) :
    normalizedAngle length index r = normalizedAngleExact length index r := by
  obtain ⟨h1, h2, h3, h4, h5, h6, h7⟩ := h
  have ha : adjustedRotationY r = adjustedRotationYExact r := by
    unfold adjustedRotationY adjustedRotationYExact fadd
    rw [h3]
  unfold normalizedAngle normalizedAngleExact fadd fsub fmul fdiv
  simp only
  rw [ha, h1, h2, h4, h5, h6]
  split_ifs with hgt
  · exact h7 hgt
  · rfl

theorem jsRem_eq_of_nonneg (a : ℚ) (k : ℤ) (h0 : 0 ≤ a) (h1 : 0 ≤ a - 360 * (k : ℚ))
    (h2 : a - 360 * (k : ℚ) < 360) : jsRem a 360 = a - 360 * (k : ℚ) := by
  obtain ⟨j, hj⟩ := jsRem_congr a
  obtain ⟨r1, r2⟩ := jsRem_range_of_nonneg a h0
  have z := eq_zero_of_small_multiple (a - 360 * (k : ℚ) - jsRem a 360) (j - k)
    (by push_cast; linarith) (by linarith) (by linarith)
  linarith

theorem jsRem_eq_self_of_neg (a : ℚ) (h0 : a < 0) (h1 : -360 < a) : jsRem a 360 = a := by
  obtain ⟨j, hj⟩ := jsRem_congr a
  obtain ⟨r1, r2⟩ := jsRem_range_of_neg a h0
  have z := eq_zero_of_small_multiple (a - jsRem a 360) j hj (by linarith) (by linarith)
  linarith

theorem roundDouble_90 : roundDouble 90 = 90 := by
  simpa using roundDouble_intCast 90 (by norm_num)

theorem roundDouble_180 : roundDouble 180 = 180 := by
  simpa using roundDouble_intCast 180 (by norm_num)

theorem roundDouble_270 : roundDouble 270 = 270 := by
  simpa using roundDouble_intCast 270 (by norm_num)

theorem roundDouble_450 : roundDouble 450 = 450 := by
  simpa using roundDouble_intCast 450 (by norm_num)

theorem roundDouble_near_360 (r : ℚ) (h1 : -(2 : ℚ) ^ (-45 : ℤ) < r) (h2 : r < 0) :
    roundDouble (r + 360) = 360 := by
  have hp : (2 : ℚ) ^ (-45 : ℤ) < 1 := by norm_num
  refine roundDouble_of_near (r + 360) 360 8 (360 * 2 ^ 44) (by norm_num) ?_ ?_
    (by norm_num) ?_
  · rw [abs_of_pos (by linarith)]
    norm_num
    linarith
  · rw [abs_of_pos (by linarith)]
    norm_num
    linarith
  · rw [show r + 360 - 360 = r by ring, abs_of_neg h2]
    norm_num at h1 ⊢
    linarith

theorem normalizedAngle_of_tiny_negative (r : ℚ) (h1 : -(2 : ℚ) ^ (-45 : ℤ) < r)
    (h2 : r < 0) : normalizedAngle 4 2 r = 90 := by
  have hp : (2 : ℚ) ^ (-45 : ℤ) < 1 := by norm_num
  have j1 : jsRem r 360 = r := jsRem_eq_self_of_neg r h2 (by linarith)
  have j2 : jsRem 360 360 = 0 := by
    have h := jsRem_eq_of_nonneg 360 1 (by norm_num) (by norm_num) (by norm_num)
    rw [h]; norm_num
  have j3 : jsRem 450 360 = 90 := by
    have h := jsRem_eq_of_nonneg 450 1 (by norm_num) (by norm_num) (by norm_num)
    rw [h]; norm_num
  have hadj : adjustedRotationY r = 0 := by
    unfold adjustedRotationY fadd
    rw [j1, roundDouble_near_360 r h1 h2, j2]
  have e1 : fdiv 360 ((4 : ℕ) : ℚ) = 90 := by
    unfold fdiv
    rw [show (360 : ℚ) / ((4 : ℕ) : ℚ) = 90 by norm_num, roundDouble_90]
  have e2 : fmul 90 ((2 : ℕ) : ℚ) = 180 := by
    unfold fmul
    rw [show (90 : ℚ) * ((2 : ℕ) : ℚ) = 180 by norm_num, roundDouble_180]
  have e3 : fadd 180 90 = 270 := by
    unfold fadd
    rw [show (180 : ℚ) + 90 = 270 by norm_num, roundDouble_270]
  have e4 : fsub 270 0 = 270 := by
    unfold fsub
    rw [show (270 : ℚ) - 0 = 270 by norm_num, roundDouble_270]
  have e5 : fadd 270 180 = 450 := by
    unfold fadd
    rw [show (270 : ℚ) + 180 = 450 by norm_num, roundDouble_450]
  unfold normalizedAngle
  simp only [e1, e2, e3, hadj, e4, e5, j3]
  norm_num

/-- C8 (as stated, refuted): four items, item `2`, at the yaw
`-0x1.f7e3838fc410cp-46` (about `-2.8e-14`, the double the script holds after
ArrowLeft, five frames, ArrowRight and 303 frames).  The sum
`(rotationY % 360) + 360` rounds to `360`, so `adjustedRotationY` is `0` and the
computed `normalizedAngle` is exactly `90`: the item is shown.  The
representative in `(-180, 180]` of `360*2/4 + 270 - rotationY` is `90` plus
`2.8e-14`, which exceeds `90` in magnitude, and the computed angle is not
congruent to that offset modulo `360`. -/
theorem backface_rounding_counterexample :
    (normalizedAngle 4 2 (-8864504217354508 / 2 ^ 98) = 90 ∧
      isBackSide 4 2 (-8864504217354508 / 2 ^ 98) = false ∧
      (timelineItemStyle 4 2 0 (-8864504217354508 / 2 ^ 98)).opacity = "1" ∧
      (timelineItemStyle 4 2 0 (-8864504217354508 / 2 ^ 98)).pointerEvents = "auto") ∧
    ((-180 < (90 + 8864504217354508 / 2 ^ 98 : ℚ) ∧
        (90 + 8864504217354508 / 2 ^ 98 : ℚ) ≤ 180) ∧
      360 * ((2 : ℕ) : ℚ) / ((4 : ℕ) : ℚ) + 270 - (-8864504217354508 / 2 ^ 98)
          - (90 + 8864504217354508 / 2 ^ 98)
        = 360 * ((1 : ℤ) : ℚ) ∧
      90 < |(90 + 8864504217354508 / 2 ^ 98 : ℚ)|) ∧
    ¬ ∃ k : ℤ, 360 * ((2 : ℕ) : ℚ) / ((4 : ℕ) : ℚ) + 270 - (-8864504217354508 / 2 ^ 98)
        - normalizedAngle 4 2 (-8864504217354508 / 2 ^ 98) = 360 * (k : ℚ) := by
  have hn : normalizedAngle 4 2 (-8864504217354508 / 2 ^ 98) = 90 :=
    normalizedAngle_of_tiny_negative _ (by norm_num) (by norm_num)
  have hb : isBackSide 4 2 (-8864504217354508 / 2 ^ 98) = false := by
    unfold isBackSide
    rw [hn]
    norm_num
  refine ⟨⟨hn, hb, ?_, ?_⟩, ⟨⟨by norm_num, by norm_num⟩, by norm_num, ?_⟩, ?_⟩
  · simp [timelineItemStyle, hb]
  · simp [timelineItemStyle, hb]
  · rw [abs_of_pos (by norm_num)]
    norm_num
  · rintro ⟨k, hk⟩
    rw [hn] at hk
    have z := eq_zero_of_small_multiple (8864504217354508 / 2 ^ 98) (k - 1)
      (by push_cast; push_cast at hk; linarith) (by norm_num) (by norm_num)
    norm_num at z

/-- C8 (amended): for `N ≥ 1` items, an index `i < N` and any current yaw
`rotationY`, the item gets opacity "0" and pointer-events "none" exactly when
the `normalizedAngle` that `updateGlobeRotation` computes for it, in double
arithmetic, exceeds `90` in magnitude, and opacity "1" and pointer-events "auto"
exactly when it does not; this is the style written on item `i`, computed from
the eased yaw.  Whenever no operation of the computation rounds, the computed
`normalizedAngle` is the representative in `(-180, 180]` of
`360*i/N + 270 - rotationY` modulo `360`, and if that also holds at
`rotationY + 360*m` the visibility is the same at both yaws. -/
theorem backface_culling (N i : ℕ) (rotationY : ℚ) (hN : 1 ≤ N) (hi : i < N) :
    (∀ rotationX : ℚ,
      (((timelineItemStyle N i rotationX rotationY).opacity = "0" ∧
          (timelineItemStyle N i rotationX rotationY).pointerEvents = "none") ↔
        90 < |normalizedAngle N i rotationY|) ∧
      (((timelineItemStyle N i rotationX rotationY).opacity = "1" ∧
          (timelineItemStyle N i rotationX rotationY).pointerEvents = "auto") ↔
        ¬ 90 < |normalizedAngle N i rotationY|)) ∧
    (∀ s : State, s.items.length = N →
      (updateGlobeRotation s).items[i]?
        = some (timelineItemStyle N i (updateGlobeRotation s).rotationX
            (updateGlobeRotation s).rotationY)) ∧
    (NoRounding N i rotationY →
      (-180 < normalizedAngle N i rotationY ∧ normalizedAngle N i rotationY ≤ 180) ∧
      ∃ k : ℤ, 360 * (i : ℚ) / (N : ℚ) + 270 - rotationY - normalizedAngle N i rotationY
        = 360 * (k : ℚ)) ∧
    (∀ (m : ℤ) (rotationX : ℚ),
      NoRounding N i rotationY → NoRounding N i (rotationY + 360 * (m : ℚ)) →
      isBackSide N i (rotationY + 360 * (m : ℚ)) = isBackSide N i rotationY ∧
      (timelineItemStyle N i rotationX (rotationY + 360 * (m : ℚ))).opacity
        = (timelineItemStyle N i rotationX rotationY).opacity ∧
      (timelineItemStyle N i rotationX (rotationY + 360 * (m : ℚ))).pointerEvents
        = (timelineItemStyle N i rotationX rotationY).pointerEvents) := by
  refine ⟨?_, ?_, ?_, ?_⟩
  · intro rotationX
    rw [← isBackSide_iff]
    cases hb : isBackSide N i rotationY <;> simp +decide [timelineItemStyle, hb]
  · intro s hs
    subst hs
    exact updateGlobeRotation_items s i hi
  · intro h
    rw [normalizedAngle_of_noRounding N i rotationY h]
    exact normalizedAngleExact_spec N i rotationY
  · intro m rotationX h1 h2
    have hper : isBackSide N i (rotationY + 360 * (m : ℚ)) = isBackSide N i rotationY := by
      unfold isBackSide
      rw [normalizedAngle_of_noRounding N i _ h2, normalizedAngle_of_noRounding N i _ h1,
        normalizedAngleExact_periodic]
    refine ⟨hper, ?_, ?_⟩ <;> simp only [timelineItemStyle, hper]

theorem noRounding_example_neg : NoRounding 4 1 (-30) := by
  have j1 : jsRem (-30) 360 = -30 := jsRem_eq_self_of_neg _ (by norm_num) (by norm_num)
  have j2 : jsRem 330 360 = 330 := by
    have h := jsRem_eq_of_nonneg 330 0 (by norm_num) (by norm_num) (by norm_num)
    rw [h]; norm_num
  have j3 : jsRem 30 360 = 30 := by
    have h := jsRem_eq_of_nonneg 30 0 (by norm_num) (by norm_num) (by norm_num)
    rw [h]; norm_num
  have r1 : roundDouble 330 = 330 := by simpa using roundDouble_intCast 330 (by norm_num)
  have r2 : roundDouble (-150) = -150 := by
    simpa using roundDouble_intCast (-150) (by norm_num)
  have r3 : roundDouble 30 = 30 := by simpa using roundDouble_intCast 30 (by norm_num)
  simp only [NoRounding, adjustedRotationYExact]
  norm_num [j1, j2, j3, r1, r2, r3, roundDouble_90, roundDouble_180]

theorem noRounding_example_pos : NoRounding 4 1 330 := by
  have j2 : jsRem 330 360 = 330 := by
    have h := jsRem_eq_of_nonneg 330 0 (by norm_num) (by norm_num) (by norm_num)
    rw [h]; norm_num
  have j4 : jsRem 690 360 = 330 := by
    have h := jsRem_eq_of_nonneg 690 1 (by norm_num) (by norm_num) (by norm_num)
    rw [h]; norm_num
  have j3 : jsRem 30 360 = 30 := by
    have h := jsRem_eq_of_nonneg 30 0 (by norm_num) (by norm_num) (by norm_num)
    rw [h]; norm_num
  have r0 : roundDouble 690 = 690 := by simpa using roundDouble_intCast 690 (by norm_num)
  have r2 : roundDouble (-150) = -150 := by
    simpa using roundDouble_intCast (-150) (by norm_num)
  have r3 : roundDouble 30 = 30 := by simpa using roundDouble_intCast 30 (by norm_num)
  simp only [NoRounding, adjustedRotationYExact]
  norm_num [j2, j3, j4, r0, r2, r3, roundDouble_90, roundDouble_180]

theorem backface_culling_witness :
    (NoRounding 4 1 (-30) ∧ NoRounding 4 1 (-30 + 360 * ((1 : ℤ) : ℚ))) ∧
    ((-180 < normalizedAngle 4 1 (-30) ∧ normalizedAngle 4 1 (-30) ≤ 180) ∧
      ∃ k : ℤ, 360 * ((1 : ℕ) : ℚ) / ((4 : ℕ) : ℚ) + 270 - (-30) - normalizedAngle 4 1 (-30)
        = 360 * (k : ℚ)) ∧
    isBackSide 4 1 (-30 + 360 * ((1 : ℤ) : ℚ)) = isBackSide 4 1 (-30) :=
  have e : (-30 : ℚ) + 360 * ((1 : ℤ) : ℚ) = 330 := by norm_num
  have h2 : NoRounding 4 1 (-30 + 360 * ((1 : ℤ) : ℚ)) := by
    rw [e]; exact noRounding_example_pos
  ⟨⟨noRounding_example_neg, h2⟩,
    (backface_culling 4 1 (-30) (by decide) (by decide)).2.2.1 noRounding_example_neg,
    ((backface_culling 4 1 (-30) (by decide) (by decide)).2.2.2 1 0
      noRounding_example_neg h2).1⟩

end GlobeScript
